import Mathlib

/-!
Shallow embedding of the Scoring & Recommendation Engine of `src/app.py`
(a single-file dashboard over a telemetry table), together with proofs of
the specified properties.

Modelling conventions:
* a pandas dataframe is a `List Row` (row order is the dataframe order);
* float values are embedded as `ℚ` (the source arithmetic is plain
  `+ * / min max` on finite values, which ℚ models exactly);
* a possibly-missing timestamp (`NaT` after `pd.to_datetime(...,
  errors="coerce")`) is `Option ℚ`, measured in seconds;
* `asset_id` values are abstracted as `Nat` (only equality and a total
  order for the groupby key sort are used by the source).
-/

namespace App

/-- Model of `np.clip(x, lo, hi)`: values below `lo` are raised to `lo`,
values above `hi` are lowered to `hi`. -/
def clip (x lo hi : ℚ) : ℚ := min (max x lo) hi

/-- One telemetry row of the CSV table (`TelemetryRow` of the spec). -/
structure Row where
  timestamp : Option ℚ
  asset_id : Nat
  lat : ℚ
  lon : ℚ
  outage_prob : ℚ
  damage_index : ℚ
  crew_eta_min : ℚ
  criticality : ℚ
  customer_impact : ℚ
deriving DecidableEq, Repr

/-- The crew-ETA normalisation of `compute_composite`
(`np.clip((df["crew_eta_min"]/180.0)*100.0, 0, 100)`, line 52 of app.py). -/
def crew_norm (r : Row) : ℚ := clip (r.crew_eta_min / 180 * 100) 0 100

/-- The per-row composite score of `compute_composite`
(lines 49-54 of app.py):
`comp = 0.40*damage + 0.30*outage + 0.20*crit - 0.10*crew` followed by
`np.clip(comp, 0, 100)`. -/
def composite (r : Row) : ℚ :=
  clip (0.40 * r.damage_index + 0.30 * r.outage_prob + 0.20 * r.criticality
        - 0.10 * crew_norm r) 0 100

/-- A scored row: the input row plus the derived `composite` column
(`ScoredRow` of the spec; `df.assign(composite=...)`). -/
structure SRow where
  row : Row
  composite : ℚ
deriving DecidableEq, Repr

/-- Model of `compute_composite` (lines 46-54 of app.py): on an empty
batch the source returns the empty frame extended with a `composite`
column (`df.assign(composite=np.nan)`), which is the empty list of
`SRow`; otherwise every row gets its `composite` value. -/
def compute_composite (rows : List Row) : List SRow :=
  if rows.isEmpty then []
  else rows.map (fun r => ⟨r, composite r⟩)

/-- Transcription of the spec formula for the composite score
(spec section 4.1), to be compared with the source definition:
`crew_norm = clamp(crew_eta_min / 180 * 100, 0, 100)` and
`composite = clamp(0.40*damage_index + 0.30*outage_prob +
0.20*criticality - 0.10*crew_norm, 0, 100)`. -/
def composite_spec (damage outage crit crew_eta : ℚ) : ℚ :=
  clip (0.40 * damage + 0.30 * outage + 0.20 * crit
        - 0.10 * clip (crew_eta / 180 * 100) 0 100) 0 100

/-! ## Rolling window selector (lines 135-141 of app.py) -/

/-- The constant `WINDOW_SECONDS = 120` (line 12 of app.py). -/
def WINDOW_SECONDS : ℚ := 120

/-- The row predicate of the window filter
`buf["timestamp"] >= t_max - pd.Timedelta(seconds=WINDOW_SECONDS)`:
a missing timestamp (`NaT`) compares false in pandas, so such a row is
dropped by the filter. -/
def tsAtLeast (cutoff : ℚ) (r : Row) : Bool :=
  match r.timestamp with
  | some t => cutoff ≤ t
  | none => false

/-- Model of `buf["timestamp"].max()` with pandas skip-NA semantics: the
maximum of the valid timestamps, `none` when there is none (in which case
`buf["timestamp"].notna().any()` is false and the source skips the
filter). -/
def maxValidTs (rows : List Row) : Option ℚ :=
  (rows.filterMap Row.timestamp).max?

/-- Model of the current-view build (lines 136-141 of app.py): take the
replay prefix `df_all.iloc[:i]`, and when some row of it has a valid
timestamp restrict it to the rows of the last `WINDOW_SECONDS` seconds;
otherwise return the prefix unchanged. -/
def windowSelect (rows : List Row) (i : Nat) : List Row :=
  let buf := rows.take i
  match maxValidTs buf with
  | some tmax => buf.filter (tsAtLeast (tmax - WINDOW_SECONDS))
  | none => buf

/-! ## Damage injection (lines 107-121 of app.py) -/

/-- Model of `df_all["timestamp"].drop_duplicates().sort_values()`
(line 112): the distinct valid timestamps of the table in ascending
order.  Rows whose timestamp failed to parse are left out (the injection
theorems restrict to tables whose timestamps are all valid, where this
agrees with pandas; pandas would keep a trailing `NaT` entry). -/
def distinctTimes (rows : List Row) : List ℚ :=
  List.insertionSort (· ≤ ·) (rows.filterMap Row.timestamp).dedup

/-- Model of `times.searchsorted(t0, side="left")` (line 113) on the
sorted series `times`: the first position whose element is at least `t0`
(the length of `times` when there is none). -/
def searchsortedLeft (times : List ℚ) (t0 : ℚ) : Nat :=
  times.findIdx (fun t => t0 ≤ t)

/-- The timestamps the inject handler selects (lines 113-116):
`pos0 = min(max(pos0, 0), len(times)-1)`, `pos1 = min(pos0 + hot_slices,
len(times))`, `apply_times = times.iloc[pos0:pos1]`.  (`max(pos0, 0)` is
the identity on `Nat`; `len(times)-1` is truncated subtraction, which
matches the source whenever `times` is nonempty.) -/
def applyTimes (rows : List Row) (t0 : ℚ) (n : Nat) : List ℚ :=
  let times := distinctTimes rows
  let pos0 := min (searchsortedLeft times t0) (times.length - 1)
  let pos1 := min (pos0 + n) times.length
  (times.drop pos0).take (pos1 - pos0)

/-- The row mask of line 117:
`(df_all["asset_id"].eq(hot_asset)) & (df_all["timestamp"].isin(apply_times))`.
A row with an invalid timestamp is not matched (`apply_times` holds only
valid timestamps in the modelled domain). -/
def injMask (ats : List ℚ) (target : Nat) (r : Row) : Bool :=
  r.asset_id == target &&
    (match r.timestamp with
     | some t => t ∈ ats
     | none => false)

/-- The three clipped column updates of lines 118-120 applied to one
masked row. -/
def injUpdate (b : ℚ) (r : Row) : Row :=
  { r with damage_index := clip (r.damage_index + b) 0 100,
           outage_prob := clip (r.outage_prob + b * 0.5) 0 100,
           crew_eta_min := clip (r.crew_eta_min + b * 0.3) 5 240 }

/-- The masked in-place mutation of lines 117-120: every row matching
`asset_id == target` and `timestamp ∈ apply_times` gets the three clipped
updates; every other row is untouched.  The three column assignments of
the source are independent (each reads only its own column), so one pass
is exact. -/
def inject (rows : List Row) (t0 : ℚ) (target : Nat) (n : Nat) (b : ℚ) : List Row :=
  rows.map (fun r =>
    if injMask (applyTimes rows t0 n) target r then injUpdate b r else r)

/-- Model of `now_timestamp` (lines 56-60 of app.py): at replay index 0
the minimum timestamp of the table (pandas `min` skips invalid entries
and yields NaN on an empty or all-invalid column); otherwise the
timestamp of row `min(replay_index - 1, total_rows - 1)`.  Indexing an
empty table — which the source never does, since the replay index is
clamped to `[0, total_rows]` and hence is 0 there — is given the value
`none`. -/
def now_timestamp (rows : List Row) (replay_index : Nat) : Option ℚ :=
  if replay_index = 0 then
    (rows.filterMap Row.timestamp).min?
  else
    match rows[min (replay_index - 1) (rows.length - 1)]? with
    | some r => r.timestamp
    | none => none

/-- Result of one press of the Inject button: the table afterwards, and
whether the "Start the replay first." warning was shown instead of
mutating. -/
structure InjectResult where
  table : List Row
  warned : Bool
deriving DecidableEq, Repr

/-- Model of the Inject button handler (lines 107-121 of app.py): when
`now_timestamp()` is NaN (`pd.isna(t0)`) a warning is shown and nothing
is mutated; otherwise the masked clipped updates are applied. -/
def inject_handler (rows : List Row) (replay_index : Nat)
    (hot_asset : Nat) (hot_slices : Nat) (hot_boost : ℚ) : InjectResult :=
  match now_timestamp rows replay_index with
  | none => ⟨rows, true⟩
  | some t0 => ⟨inject rows t0 hot_asset hot_slices hot_boost, false⟩

/-! ## Geofence filter (lines 62-68 and 143-146 of app.py) -/

/-- The Vyshhorod focus center latitude (line 14 of app.py). -/
noncomputable def FOCUS_LAT : ℝ := 50.583

/-- The Vyshhorod focus center longitude (line 15 of app.py). -/
noncomputable def FOCUS_LON : ℝ := 30.486

/-- Model of `math.radians`: degrees to radians. -/
noncomputable def radians (d : ℝ) : ℝ := d * (Real.pi / 180)

/-- Model of `haversine_km` (lines 62-68 of app.py): great-circle
distance in kilometres with mean Earth radius `R = 6371.0`. -/
noncomputable def haversine_km (lat1 lon1 lat2 lon2 : ℝ) : ℝ :=
  let R : ℝ := 6371.0
  let p1 := radians lat1
  let p2 := radians lat2
  let dphi := radians (lat2 - lat1)
  let dlmb := radians (lon2 - lon1)
  let a := Real.sin (dphi / 2) ^ 2
    + Real.cos p1 * Real.cos p2 * Real.sin (dlmb / 2) ^ 2
  2 * R * Real.arcsin (Real.sqrt a)

open Classical in
/-- Model of the focus filter (lines 143-146 of app.py): compute the
haversine distance from the focus center to each row and keep the rows
with `dist_km <= radius_km`. -/
noncomputable def focusFilter (rows : List Row) (radius_km : ℝ) : List Row :=
  rows.filter (fun r =>
    decide (haversine_km FOCUS_LAT FOCUS_LON (r.lat : ℝ) (r.lon : ℝ)
      ≤ radius_km))

/-! ## Replay pointer operations -/

/-- Reset (line 91 of app.py): `ss.replay_index = 0`. -/
def resetPointer : Nat := 0

/-- Preload of the first view (lines 124-125 of app.py):
`min(2*assets_count, total_rows)`. -/
def preloadPointer (assets_count total_rows : Nat) : Nat :=
  min (2 * assets_count) total_rows

/-- Fast-forward by `slices` slices (lines 95-96 of app.py):
`min(replay_index + slices*assets_count, total_rows)`. -/
def fast_forward_slices (replay_index slices assets_count total_rows : Nat) :
    Nat :=
  min (replay_index + slices * assets_count) total_rows

/-- Per-tick advance by one slice (lines 128-129 of app.py):
`min(replay_index + assets_count, total_rows)`. -/
def advancePointer (replay_index assets_count total_rows : Nat) : Nat :=
  min (replay_index + assets_count) total_rows

/-! ## Recommendation derivation (lines 165-182 of app.py) -/

/-- Per-asset aggregate of the visible window: one row of the groupby
result `grp` of lines 166-172, holding the means `comp, dmg, out, crew,
cust`. -/
structure Stats where
  asset : Nat
  comp : ℚ
  dmg : ℚ
  out : ℚ
  crew : ℚ
  cust : ℚ
deriving DecidableEq, Repr

/-- Mean of a list of rationals (pandas `mean`; the groupby only ever
forms nonempty groups, so the `/ 0` case is never reached from
`groupStats`). -/
def qmean (l : List ℚ) : ℚ := l.sum / l.length

/-- The group keys of `view.groupby("asset_id")`: the distinct asset ids
in ascending order (pandas sorts group keys). -/
def groupKeys (rows : List SRow) : List Nat :=
  List.insertionSort (· ≤ ·) (rows.map (fun sr => sr.row.asset_id)).dedup

/-- The aggregation row of lines 166-172 for one asset: per-asset means
of `composite`, `damage_index`, `outage_prob`, `crew_eta_min` and
`customer_impact` over the visible window. -/
def statsFor (rows : List SRow) (a : Nat) : Stats :=
  let g := rows.filter (fun sr => sr.row.asset_id == a)
  { asset := a,
    comp := qmean (g.map (fun sr => sr.composite)),
    dmg := qmean (g.map (fun sr => sr.row.damage_index)),
    out := qmean (g.map (fun sr => sr.row.outage_prob)),
    crew := qmean (g.map (fun sr => sr.row.crew_eta_min)),
    cust := qmean (g.map (fun sr => sr.row.customer_impact)) }

/-- The full groupby aggregation `grp` of lines 166-172. -/
def groupStats (rows : List SRow) : List Stats :=
  (groupKeys rows).map (statsFor rows)

/-- One dispatch recommendation.  The display-only `why` string of the
source (a formatted echo of the rounded means) is presentation text and
is not modelled. -/
structure Rec where
  asset : Nat
  priority : Nat
  action : String
deriving DecidableEq, Repr

/-- The priority-1 recommendation of lines 174-177. -/
def rec1 (g : Stats) : Rec :=
  { asset := g.asset, priority := 1,
    action := "Dispatch nearest crew; backfeed & partial load-shed; UAV recon" }

/-- The priority-2 recommendation of lines 178-181. -/
def rec2 (g : Stats) : Rec :=
  { asset := g.asset, priority := 2,
    action := "Re-route standby crew; pre-position spares" }

/-- The two independent threshold rules of the loop body (lines
174-181), applied to one asset group, in source order. -/
def recsOfGroup (g : Stats) : List Rec :=
  (if 80 < g.comp ∧ 10000 < g.cust then [rec1 g] else []) ++
  (if 70 < g.dmg ∧ 45 < g.crew then [rec2 g] else [])

/-- The loop of lines 173-181: a pass over the asset groups in groupby
order, appending each group's fired recommendations. -/
def recsOfStats (l : List Stats) : List Rec :=
  l.foldl (fun acc g => acc ++ recsOfGroup g) []

/-- The comparison `key=lambda x: x["priority"]` of line 182. -/
def recLE (a b : Rec) : Bool := a.priority ≤ b.priority

/-- Line 182, `recs = sorted(recs, key=lambda x: x["priority"])[:6]`:
Python's `sorted` is a stable sort, modelled by `List.mergeSort` (stable
in the same sense), truncated to the first 6 entries. -/
def sortRecs (recs : List Rec) : List Rec :=
  (recs.mergeSort recLE).take 6

/-! ## Sample tables used by the witnesses -/

/-- A one-row scored window whose single asset group fires both rules. -/
def wrowBoth : SRow :=
  ⟨{ timestamp := some 0, asset_id := 1, lat := 0, lon := 0,
     outage_prob := 50, damage_index := 75, crew_eta_min := 50,
     criticality := 50, customer_impact := 12000 }, 85⟩

/-- The asset-group aggregate of the window `[wrowBoth]`. -/
def gBoth : Stats :=
  { asset := 1, comp := 85, dmg := 75, out := 50, crew := 50, cust := 12000 }

/-- Ten asset groups that all fire rule 1. -/
def tenStats : List Stats :=
  (List.range 10).map fun a =>
    { asset := a, comp := 90, dmg := 0, out := 0, crew := 0, cust := 20000 }

/-- An asset group firing only rule 1 (composite 85, customers 12000). -/
def statA : Stats :=
  { asset := 1, comp := 85, dmg := 0, out := 0, crew := 0, cust := 12000 }

/-- An asset group firing only rule 2 (damage 75, crew ETA 50). -/
def statB : Stats :=
  { asset := 2, comp := 0, dmg := 75, out := 0, crew := 50, cust := 0 }

/-- A sample telemetry row at timestamp `t` for asset `a`. -/
def mkRow (t : ℚ) (a : Nat) : Row :=
  { timestamp := some t, asset_id := a, lat := 50, lon := 30,
    outage_prob := 40, damage_index := 60, crew_eta_min := 30,
    criticality := 50, customer_impact := 5000 }

/-- A sample table: two assets observed at timestamps 0, 10 and 20,
sorted by (timestamp, asset_id) as `load_csv` produces it. -/
def irows : List Row :=
  [mkRow 0 1, mkRow 0 2, mkRow 10 1, mkRow 10 2, mkRow 20 1, mkRow 20 2]

/-- A row whose three injectable columns already sit at their upper clamp
bounds. -/
def satRow : Row :=
  { timestamp := some 10, asset_id := 1, lat := 0, lon := 0,
    outage_prob := 100, damage_index := 100, crew_eta_min := 240,
    criticality := 50, customer_impact := 20000 }

/-! # Theorems -/

theorem clip_le (x lo hi : ℚ) : clip x lo hi ≤ hi := min_le_right _ _

theorem le_clip (x lo hi : ℚ) (h : lo ≤ hi) : lo ≤ clip x lo hi :=
  le_min (le_max_right _ _) h

/-- C1: for every input row, with arbitrary rational field values,
`compute_composite` produces exactly the spec formula
`clamp(0.40*damage + 0.30*outage + 0.20*criticality -
0.10*clamp(crew_eta_min/180*100, 0, 100), 0, 100)`, and the resulting
composite always lies in `[0, 100]`. -/
theorem composite_matches_spec_and_in_range (r : Row) :
    composite r
      = composite_spec r.damage_index r.outage_prob r.criticality r.crew_eta_min
    ∧ 0 ≤ composite r ∧ composite r ≤ 100 :=
  ⟨rfl, le_clip _ _ _ (by norm_num), clip_le _ _ _⟩

/-- C7: `compute_composite` applied to an empty batch returns the empty
batch (whose type carries the `composite` column), and being a total
function it raises no exception. -/
theorem compute_composite_empty : compute_composite [] = [] := rfl

theorem windowSelect_of_some (rows : List Row) (i : Nat) (tmax : ℚ)
    (hmax : maxValidTs (rows.take i) = some tmax) :
    windowSelect rows i
      = (rows.take i).filter (tsAtLeast (tmax - WINDOW_SECONDS)) := by
  simp only [windowSelect, hmax]

theorem windowSelect_of_none (rows : List Row) (i : Nat)
    (hnone : maxValidTs (rows.take i) = none) :
    windowSelect rows i = rows.take i := by
  simp only [windowSelect, hnone]

/-- C5: the rolling window selector returns the prefix `rows[0:i]`
restricted to the rows whose timestamp is at least the prefix's maximum
timestamp minus `WINDOW_SECONDS` — in particular every timestamp of the
returned window is at least `t_max - WINDOW_SECONDS` — and when no row of
the prefix has a valid timestamp the unfiltered prefix is returned
unchanged (fail-open). -/
theorem windowSelect_correct (rows : List Row) (i : Nat) :
    (∀ tmax : ℚ, maxValidTs (rows.take i) = some tmax →
      windowSelect rows i
          = (rows.take i).filter (tsAtLeast (tmax - WINDOW_SECONDS))
        ∧ ∀ r ∈ windowSelect rows i, ∀ t : ℚ, r.timestamp = some t →
            tmax - WINDOW_SECONDS ≤ t)
    ∧ (maxValidTs (rows.take i) = none → windowSelect rows i = rows.take i) := by
  constructor
  · intro tmax hmax
    have heq := windowSelect_of_some rows i tmax hmax
    refine ⟨heq, ?_⟩
    intro r hr t ht
    rw [heq] at hr
    have hp := List.of_mem_filter hr
    simpa [tsAtLeast, ht] using hp
  · exact windowSelect_of_none rows i

/-! ## Injection lemmas -/

theorem distinctTimes_sorted (rows : List Row) :
    (distinctTimes rows).Pairwise (· ≤ ·) :=
  List.sorted_insertionSort _ _

/-- On a list sorted ascending, dropping everything before the first
element `≥ t0` leaves exactly the elements `≥ t0` (searchsorted-left
semantics). -/
theorem sorted_drop_findIdx_eq_filter (t0 : ℚ) :
    ∀ l : List ℚ, l.Pairwise (· ≤ ·) →
      l.drop (l.findIdx (fun t => t0 ≤ t)) = l.filter (fun t => t0 ≤ t)
  | [], _ => rfl
  | x :: xs, h => by
    rcases List.pairwise_cons.mp h with ⟨hx, hxs⟩
    by_cases hx0 : t0 ≤ x
    · rw [List.findIdx_cons, decide_eq_true hx0, cond_true, List.drop_zero]
      rw [List.filter_cons_of_pos (by simpa using hx0)]
      have hall : xs.filter (fun t => t0 ≤ t) = xs :=
        List.filter_eq_self.mpr fun a ha => by
          simpa using le_trans hx0 (hx a ha)
      rw [hall]
    · rw [List.findIdx_cons, decide_eq_false hx0, cond_false,
        List.drop_succ_cons]
      rw [List.filter_cons_of_neg (by simpa using hx0)]
      exact sorted_drop_findIdx_eq_filter t0 xs hxs

/-- When some stored timestamp is at or after `t0`, the handler's slice
`times.iloc[pos0:pos1]` is the first `n` distinct timestamps at or after
`t0`. -/
theorem applyTimes_eq_filter_take (rows : List Row) (t0 : ℚ) (n : Nat)
    (hex : ∃ t ∈ distinctTimes rows, t0 ≤ t) :
    applyTimes rows t0 n
      = ((distinctTimes rows).filter (fun t => t0 ≤ t)).take n := by
  have hsorted := distinctTimes_sorted rows
  have hlt : (distinctTimes rows).findIdx (fun t => t0 ≤ t)
      < (distinctTimes rows).length :=
    List.findIdx_lt_length_of_exists (by simpa using hex)
  have hdrop := sorted_drop_findIdx_eq_filter t0 (distinctTimes rows) hsorted
  have hlen : ((distinctTimes rows).filter (fun t => t0 ≤ t)).length
      = (distinctTimes rows).length
        - (distinctTimes rows).findIdx (fun t => t0 ≤ t) := by
    rw [← hdrop, List.length_drop]
  have hpos0 : min ((distinctTimes rows).findIdx (fun t => t0 ≤ t))
      ((distinctTimes rows).length - 1)
      = (distinctTimes rows).findIdx (fun t => t0 ≤ t) := by omega
  simp only [applyTimes, searchsortedLeft]
  rw [hpos0, hdrop, List.take_eq_take]
  omega

theorem injMask_iff (ats : List ℚ) (target : Nat) (r : Row) :
    injMask ats target r = true
      ↔ r.asset_id = target ∧ ∃ t, r.timestamp = some t ∧ t ∈ ats := by
  cases hts : r.timestamp with
  | none => simp [injMask, hts]
  | some t => simp [injMask, hts]

/-- C4: damage injection selects the `n` consecutive distinct timestamps
starting at the nearest stored timestamp at or after `t0`
(searchsorted-left semantics), and every row of the target asset at one
of the selected timestamps gets `damage_index := clamp(damage_index + b,
0, 100)`, `outage_prob := clamp(outage_prob + b*0.5, 0, 100)` and
`crew_eta_min := clamp(crew_eta_min + b*0.3, 5, 240)`; in particular the
new `crew_eta_min` lies in `[5, 240]`. -/
theorem inject_selects_and_updates (rows : List Row) (t0 : ℚ)
    (target n : Nat) (b : ℚ)
    (hvalid : ∀ r ∈ rows, r.timestamp ≠ none)
    (hex : ∃ t ∈ distinctTimes rows, t0 ≤ t) :
    applyTimes rows t0 n
        = ((distinctTimes rows).filter (fun t => t0 ≤ t)).take n
    ∧ ∀ (j : Nat) (r : Row) (t : ℚ), rows[j]? = some r →
        r.asset_id = target → r.timestamp = some t →
        t ∈ applyTimes rows t0 n →
        (inject rows t0 target n b)[j]?
            = some { r with damage_index := clip (r.damage_index + b) 0 100,
                            outage_prob := clip (r.outage_prob + b * 0.5) 0 100,
                            crew_eta_min := clip (r.crew_eta_min + b * 0.3) 5 240 }
          ∧ 5 ≤ clip (r.crew_eta_min + b * 0.3) 5 240
          ∧ clip (r.crew_eta_min + b * 0.3) 5 240 ≤ 240 := by
  refine ⟨applyTimes_eq_filter_take rows t0 n hex, ?_⟩
  intro j r t hj hasset hts hmem
  have hmask : injMask (applyTimes rows t0 n) target r = true :=
    (injMask_iff _ _ _).mpr ⟨hasset, t, hts, hmem⟩
  refine ⟨?_, le_clip _ _ _ (by norm_num), clip_le _ _ _⟩
  simp [inject, hj, hmask, injUpdate]

/-- C8 counterexample: a matching row whose three injectable columns
already sit at the clamp bounds is selected by the injection (target
asset, selected timestamp) yet the table is completely unchanged, so
injection does not always change the matching rows. -/
theorem inject_saturated_row_unchanged :
    inject [satRow] 10 1 1 20 = [satRow]
    ∧ satRow.asset_id = 1
    ∧ satRow.timestamp = some 10
    ∧ (10 : ℚ) ∈ applyTimes [satRow] 10 1 := by
  have hats : applyTimes [satRow] 10 1 = [10] := by decide
  have hupd : injUpdate 20 satRow = satRow := by
    norm_num [injUpdate, satRow, clip, min_def, max_def]
  have hmask : injMask (applyTimes [satRow] 10 1) 1 satRow = true := by
    rw [hats]; decide
  refine ⟨?_, rfl, rfl, by rw [hats]; exact List.mem_singleton.mpr rfl⟩
  calc inject [satRow] 10 1 1 20
      = [if injMask (applyTimes [satRow] 10 1) 1 satRow then
          injUpdate 20 satRow else satRow] := rfl
    _ = [injUpdate 20 satRow] := by rw [hmask]; simp
    _ = [satRow] := by rw [hupd]

/-- C8 (amended): damage injection preserves the row count and order,
never touches the `timestamp`, `asset_id`, `lat`, `lon`, `criticality`
and `customer_impact` columns, and leaves every row that does not match
`(asset_id = target ∧ timestamp ∈ selected timestamps)` completely
unchanged — only matching rows can change (a matching row already at the
clamp bounds stays equal, see the counterexample). -/
theorem inject_frame (rows : List Row) (t0 : ℚ) (target n : Nat) (b : ℚ) :
    (inject rows t0 target n b).length = rows.length
    ∧ ∀ (j : Nat) (r : Row), rows[j]? = some r →
        ∃ s : Row, (inject rows t0 target n b)[j]? = some s
          ∧ s.timestamp = r.timestamp ∧ s.asset_id = r.asset_id
          ∧ s.lat = r.lat ∧ s.lon = r.lon
          ∧ s.criticality = r.criticality
          ∧ s.customer_impact = r.customer_impact
          ∧ (¬ (r.asset_id = target ∧ ∃ t, r.timestamp = some t
                  ∧ t ∈ applyTimes rows t0 n) → s = r) := by
  constructor
  · simp [inject]
  · intro j r hj
    refine ⟨if injMask (applyTimes rows t0 n) target r then injUpdate b r
            else r, by simp [inject, hj], ?_⟩
    by_cases hmask : injMask (applyTimes rows t0 n) target r = true
    · simp only [hmask, if_true]
      refine ⟨rfl, rfl, rfl, rfl, rfl, rfl, ?_⟩
      intro hnot
      exact absurd ((injMask_iff _ _ _).mp hmask) hnot
    · simp only [hmask, if_false]
      exact ⟨rfl, rfl, rfl, rfl, rfl, rfl, fun _ => rfl⟩

/-- C6: when the visible window is empty at the moment the Inject button
is handled — given the session invariants that the replay pointer is at
most the table size and is positive once the (nonempty) table has been
preloaded, which hold whenever the handler can run — the handler shows
the warning and performs no mutation: the table is returned completely
unchanged. -/
theorem inject_handler_empty_window (rows : List Row) (i : Nat)
    (target slices : Nat) (b : ℚ)
    (hw : windowSelect rows i = [])
    (hpre : rows ≠ [] → 0 < i)
    (hle : i ≤ rows.length) :
    inject_handler rows i target slices b = ⟨rows, true⟩ := by
  have hbuf : rows.take i = [] := by
    cases hmax : maxValidTs (rows.take i) with
    | none => rw [← windowSelect_of_none rows i hmax, hw]
    | some tmax =>
      exfalso
      have hmem : tmax ∈ (rows.take i).filterMap Row.timestamp :=
        List.max?_mem (fun a b => max_choice a b) hmax
      rcases List.mem_filterMap.mp hmem with ⟨r, hr, hrts⟩
      have hfilter : r ∈ windowSelect rows i := by
        rw [windowSelect_of_some rows i tmax hmax]
        refine List.mem_filter.mpr ⟨hr, ?_⟩
        simp only [tsAtLeast, hrts, decide_eq_true_eq]
        exact sub_le_self tmax (by norm_num [WINDOW_SECONDS])
      rw [hw] at hfilter
      exact List.not_mem_nil r hfilter
  have hrows : rows = [] := by
    rcases List.take_eq_nil_iff.mp hbuf with hi | hrows
    · by_contra hne
      exact absurd hi (Nat.pos_iff_ne_zero.mp (hpre hne))
    · exact hrows
  subst hrows
  have hi0 : i = 0 := Nat.le_zero.mp hle
  subst hi0
  rfl

/-- Witness for C4: on the sample table, injecting at `t0 = 7` with 2
slices selects exactly the timestamps 10 and 20. -/
theorem inject_selects_and_updates_witness :
    applyTimes irows 7 2 = [(10 : ℚ), 20] :=
  ((inject_selects_and_updates irows 7 1 2 20 (by decide) (by decide)).1).trans
    (by decide)

/-- Witness for C6: on the empty table at replay index 0 the handler
warns and returns the table unchanged. -/
theorem inject_handler_empty_window_witness :
    inject_handler [] 0 1 3 20 = ⟨[], true⟩ :=
  inject_handler_empty_window [] 0 1 3 20 rfl (fun h => absurd rfl h)
    (Nat.le_refl 0)

/-! ## Recommendation lemmas -/

theorem recsOfStats_foldl (l : List Stats) :
    ∀ acc : List Rec,
      l.foldl (fun acc g => acc ++ recsOfGroup g) acc
        = acc ++ l.flatMap recsOfGroup := by
  induction l with
  | nil => intro acc; simp
  | cons g gs ih =>
    intro acc
    simp only [List.foldl_cons, List.flatMap_cons, ih, List.append_assoc]

theorem recsOfStats_eq_flatMap (l : List Stats) :
    recsOfStats l = l.flatMap recsOfGroup := by
  simpa using recsOfStats_foldl l []

theorem mem_recsOfGroup (r : Rec) (g : Stats) :
    r ∈ recsOfGroup g
      ↔ (r = rec1 g ∧ 80 < g.comp ∧ 10000 < g.cust)
        ∨ (r = rec2 g ∧ 70 < g.dmg ∧ 45 < g.crew) := by
  by_cases h1 : 80 < g.comp ∧ 10000 < g.cust <;>
    by_cases h2 : 70 < g.dmg ∧ 45 < g.crew <;>
      simp [recsOfGroup, h1, h2]

theorem groupStats_asset_eq (rows : List SRow) (g : Stats)
    (hg : g ∈ groupStats rows) : g = statsFor rows g.asset := by
  rcases List.mem_map.mp hg with ⟨a, _, rfl⟩
  rfl

theorem rec1_ne_rec2 (g g2 : Stats) : rec1 g ≠ rec2 g2 := by
  intro h
  have hp := congrArg Rec.priority h
  simp [rec1, rec2] at hp

/-- C2: for every asset group of the visible window, the priority-1
recommendation for that asset is emitted iff its mean composite exceeds
80 and its mean customer impact exceeds 10000; the priority-2
recommendation is emitted iff its mean damage exceeds 70 and its mean
crew ETA exceeds 45; and a group satisfying both conditions contributes
exactly two separate recommendation entries. -/
theorem recommendation_rules (rows : List SRow) (g : Stats)
    (hg : g ∈ groupStats rows) :
    (rec1 g ∈ recsOfStats (groupStats rows)
      ↔ 80 < g.comp ∧ 10000 < g.cust)
    ∧ (rec2 g ∈ recsOfStats (groupStats rows)
      ↔ 70 < g.dmg ∧ 45 < g.crew)
    ∧ ((80 < g.comp ∧ 10000 < g.cust) → (70 < g.dmg ∧ 45 < g.crew) →
        recsOfGroup g = [rec1 g, rec2 g]) := by
  refine ⟨?_, ?_, ?_⟩
  · rw [recsOfStats_eq_flatMap, List.mem_flatMap]
    constructor
    · rintro ⟨g2, hg2, hmem⟩
      rcases (mem_recsOfGroup _ _).mp hmem with ⟨heq, hc⟩ | ⟨heq, _⟩
      · have hasset : g.asset = g2.asset := by
          have ha := congrArg Rec.asset heq
          simpa [rec1] using ha
        have hgg : g = g2 := by
          rw [groupStats_asset_eq rows g hg, groupStats_asset_eq rows g2 hg2,
            hasset]
        rw [hgg]
        exact hc
      · exact absurd heq (rec1_ne_rec2 g g2)
    · intro hc
      exact ⟨g, hg, (mem_recsOfGroup _ _).mpr (Or.inl ⟨rfl, hc⟩)⟩
  · rw [recsOfStats_eq_flatMap, List.mem_flatMap]
    constructor
    · rintro ⟨g2, hg2, hmem⟩
      rcases (mem_recsOfGroup _ _).mp hmem with ⟨heq, _⟩ | ⟨heq, hc⟩
      · exact absurd heq.symm (rec1_ne_rec2 g2 g)
      · have hasset : g.asset = g2.asset := by
          have ha := congrArg Rec.asset heq
          simpa [rec2] using ha
        have hgg : g = g2 := by
          rw [groupStats_asset_eq rows g hg, groupStats_asset_eq rows g2 hg2,
            hasset]
        rw [hgg]
        exact hc
    · intro hc
      exact ⟨g, hg, (mem_recsOfGroup _ _).mpr (Or.inr ⟨rfl, hc⟩)⟩
  · intro h1 h2
    simp [recsOfGroup, h1, h2]

/-- Witness for C2: the sample one-row window fires both rules for its
single asset group, yielding two entries. -/
theorem recommendation_rules_witness :
    rec1 gBoth ∈ recsOfStats (groupStats [wrowBoth])
    ∧ recsOfGroup gBoth = [rec1 gBoth, rec2 gBoth] := by
  have hgs : groupStats [wrowBoth] = [gBoth] := by
    simp [groupStats, groupKeys, statsFor, qmean, wrowBoth, gBoth,
      List.dedup_cons_of_not_mem, List.insertionSort]
  have h := recommendation_rules [wrowBoth] gBoth
    (hgs ▸ List.mem_singleton.mpr rfl)
  exact ⟨h.1.mpr (by norm_num [gBoth]), h.2.2 (by norm_num [gBoth])
    (by norm_num [gBoth])⟩

/-! ## Stable sort lemmas for the final recommendation list -/

theorem recLE_trans : ∀ a b c : Rec, recLE a b → recLE b c → recLE a c := by
  intro a b c hab hbc
  simp only [recLE, decide_eq_true_eq] at *
  omega

theorem recLE_total : ∀ a b : Rec, recLE a b || recLE b a := by
  intro a b
  simp only [recLE]
  rcases Nat.le_total a.priority b.priority with h | h <;> simp [h]

theorem recs_priority_mem (l : List Stats) (r : Rec)
    (hr : r ∈ recsOfStats l) : r.priority = 1 ∨ r.priority = 2 := by
  rw [recsOfStats_eq_flatMap, List.mem_flatMap] at hr
  rcases hr with ⟨g, _, hmem⟩
  rcases (mem_recsOfGroup r g).mp hmem with ⟨heq, _⟩ | ⟨heq, _⟩
  · subst heq
    exact Or.inl rfl
  · subst heq
    exact Or.inr rfl

/-- A list sorted for `recLE` splits as the entries of priority at most
1 followed by the rest, in order. -/
theorem sorted_eq_filter_append :
    ∀ l : List Rec, l.Pairwise (fun a b => recLE a b = true) →
      l = l.filter (fun r => decide (r.priority ≤ 1))
          ++ l.filter (fun r => !(decide (r.priority ≤ 1)))
  | [], _ => rfl
  | x :: xs, h => by
    rcases List.pairwise_cons.mp h with ⟨hx, hxs⟩
    have ih := sorted_eq_filter_append xs hxs
    cases hp : decide (x.priority ≤ 1) with
    | true =>
      simp only [List.filter_cons, hp, Bool.not_true, cond_true, cond_false,
        List.cons_append]
      exact congrArg (x :: ·) ih
    | false =>
      have hnone : xs.filter (fun r => decide (r.priority ≤ 1)) = [] := by
        rw [List.filter_eq_nil_iff]
        intro a ha hpa
        have hle := hx a ha
        simp only [recLE, decide_eq_true_eq] at hle hpa
        simp only [decide_eq_false_iff_not] at hp
        exact hp (le_trans hle hpa)
      simp only [List.filter_cons, hp, Bool.not_false, cond_true, cond_false,
        hnone, List.nil_append]
      have hxs2 : xs = xs.filter (fun r => !(decide (r.priority ≤ 1))) := by
        conv_lhs => rw [ih]
        rw [hnone, List.nil_append]
      exact congrArg (x :: ·) hxs2

/-- Stability of the sort of line 182: a bucket of pairwise-comparable
entries is preserved verbatim by `mergeSort`. -/
theorem filter_mergeSort_eq (R : List Rec) (p : Rec → Bool)
    (hconst : ∀ a ∈ R.filter p, ∀ b ∈ R.filter p, recLE a b = true) :
    (R.mergeSort recLE).filter p = R.filter p := by
  have hpw : (R.filter p).Pairwise (fun a b => recLE a b = true) :=
    List.pairwise_of_forall_mem_list hconst
  have h1 : List.Sublist (R.filter p) (R.mergeSort recLE) :=
    List.sublist_mergeSort recLE_trans recLE_total hpw (List.filter_sublist R)
  have hidem : (R.filter p).filter p = R.filter p :=
    List.filter_eq_self.mpr fun a ha => List.of_mem_filter ha
  have h2 := h1.filter p
  rw [hidem] at h2
  have hperm : List.Perm ((R.mergeSort recLE).filter p) (R.filter p) :=
    (List.mergeSort_perm R recLE).filter p
  exact (h2.eq_of_length hperm.length_eq.symm).symm

/-- The final list of line 182 equals: priority-1 entries in original
order, then priority-2 entries in original order, truncated to 6. -/
theorem sortRecs_eq (l : List Stats) :
    sortRecs (recsOfStats l)
      = ((recsOfStats l).filter (fun r => r.priority == 1)
          ++ (recsOfStats l).filter (fun r => r.priority == 2)).take 6 := by
  have hprio := recs_priority_mem l
  have hsorted : ((recsOfStats l).mergeSort recLE).Pairwise
      (fun a b => recLE a b = true) :=
    List.sorted_mergeSort recLE_trans recLE_total (recsOfStats l)
  have hdecomp := sorted_eq_filter_append
    ((recsOfStats l).mergeSort recLE) hsorted
  have hc1 : ((recsOfStats l).mergeSort recLE).filter
      (fun r => decide (r.priority ≤ 1))
      = (recsOfStats l).filter (fun r => decide (r.priority ≤ 1)) := by
    refine filter_mergeSort_eq _ _ ?_
    intro a ha b hb
    have hpa := List.of_mem_filter ha
    simp only [decide_eq_true_eq] at hpa
    rcases hprio b (List.mem_of_mem_filter hb) with h2 | h2 <;>
      · simp only [recLE, decide_eq_true_eq]
        omega
  have hc2 : ((recsOfStats l).mergeSort recLE).filter
      (fun r => !(decide (r.priority ≤ 1)))
      = (recsOfStats l).filter (fun r => !(decide (r.priority ≤ 1))) := by
    refine filter_mergeSort_eq _ _ ?_
    intro a ha b hb
    have hpa := List.of_mem_filter ha
    have hpb := List.of_mem_filter hb
    simp only [Bool.not_eq_true', decide_eq_false_iff_not] at hpa hpb
    rcases hprio a (List.mem_of_mem_filter ha) with h | h <;>
      · simp only [recLE, decide_eq_true_eq]
        omega
  have h1eq : ∀ a ∈ recsOfStats l,
      (decide (a.priority ≤ 1)) = (a.priority == 1) := by
    intro a ha
    rcases hprio a ha with h | h <;> rw [h] <;> rfl
  have h2eq : ∀ a ∈ recsOfStats l,
      (!(decide (a.priority ≤ 1))) = (a.priority == 2) := by
    intro a ha
    rcases hprio a ha with h | h <;> rw [h] <;> rfl
  calc sortRecs (recsOfStats l)
      = (((recsOfStats l).mergeSort recLE).filter
          (fun r => decide (r.priority ≤ 1))
        ++ ((recsOfStats l).mergeSort recLE).filter
          (fun r => !(decide (r.priority ≤ 1)))).take 6 := by
        rw [sortRecs, ← hdecomp]
    _ = ((recsOfStats l).filter (fun r => decide (r.priority ≤ 1))
        ++ (recsOfStats l).filter
          (fun r => !(decide (r.priority ≤ 1)))).take 6 := by
        rw [hc1, hc2]
    _ = ((recsOfStats l).filter (fun r => r.priority == 1)
        ++ (recsOfStats l).filter (fun r => r.priority == 2)).take 6 := by
        rw [List.filter_congr h1eq, List.filter_congr h2eq]

/-- C3: the final recommendation list is the fired recommendations
sorted by priority ascending, stably — the priority-1 entries in their
original group order followed by the priority-2 entries in their
original group order — truncated to the first 6 entries; in particular
ten asset groups all firing rule 1 yield exactly 6 entries, and with one
group firing rule 1 and another firing rule 2 the priority-1 entry
precedes the priority-2 entry. -/
theorem recs_sorted_and_truncated (l : List Stats) :
    sortRecs (recsOfStats l)
      = ((recsOfStats l).filter (fun r => r.priority == 1)
          ++ (recsOfStats l).filter (fun r => r.priority == 2)).take 6
    ∧ (sortRecs (recsOfStats tenStats)).length = 6
    ∧ sortRecs (recsOfStats [statA, statB]) = [rec1 statA, rec2 statB] := by
  refine ⟨sortRecs_eq l, ?_, ?_⟩
  · rw [sortRecs_eq]
    decide
  · rw [sortRecs_eq]
    decide

/-! ## Geofence and pointer theorems -/

/-- C9: haversine distance from a point to itself is zero; it is
symmetric in its two coordinate pairs; and the geofence filter retains
exactly the rows whose distance from the focus center is at most the
radius. -/
theorem haversine_properties (lat1 lon1 lat2 lon2 : ℝ)
    (rows : List Row) (radius_km : ℝ) :
    haversine_km lat1 lon1 lat1 lon1 = 0
    ∧ haversine_km lat1 lon1 lat2 lon2 = haversine_km lat2 lon2 lat1 lon1
    ∧ ∀ r : Row, r ∈ focusFilter rows radius_km
        ↔ r ∈ rows
          ∧ haversine_km FOCUS_LAT FOCUS_LON (r.lat : ℝ) (r.lon : ℝ)
              ≤ radius_km := by
  refine ⟨?_, ?_, ?_⟩
  · simp [haversine_km, radians]
  · have key : ∀ u v : ℝ,
        Real.sin (radians (u - v) / 2) ^ 2
          = Real.sin (radians (v - u) / 2) ^ 2 := by
      intro u v
      have hneg : radians (u - v) = -(radians (v - u)) := by
        simp only [radians]
        ring
      rw [hneg, neg_div, Real.sin_neg, neg_sq]
    simp only [haversine_km]
    rw [key lat2 lat1, key lon2 lon1,
      mul_comm (Real.cos (radians lat1)) (Real.cos (radians lat2))]
  · intro r
    simp [focusFilter, List.mem_filter]

/-- C10: assuming the slice-alignment invariant (`assets_count` divides
`total_rows`) and a pointer in range and aligned, every pointer-mutating
operation of the source — reset, preload, fast-forward and the per-tick
advance — yields a pointer that is again within `[0, total_rows]` and a
multiple of `assets_count`. -/
theorem replay_pointer_invariant (assets_count total_rows i k : Nat)
    (halign : assets_count ∣ total_rows)
    (hle : i ≤ total_rows) (hdvd : assets_count ∣ i) :
    (resetPointer ≤ total_rows ∧ assets_count ∣ resetPointer)
    ∧ (preloadPointer assets_count total_rows ≤ total_rows
        ∧ assets_count ∣ preloadPointer assets_count total_rows)
    ∧ (fast_forward_slices i k assets_count total_rows ≤ total_rows
        ∧ assets_count ∣ fast_forward_slices i k assets_count total_rows)
    ∧ (advancePointer i assets_count total_rows ≤ total_rows
        ∧ assets_count ∣ advancePointer i assets_count total_rows) := by
  have hmin : ∀ x : Nat, assets_count ∣ x →
      assets_count ∣ min x total_rows := by
    intro x hx
    rcases Nat.le_total x total_rows with h | h
    · rw [Nat.min_eq_left h]
      exact hx
    · rw [Nat.min_eq_right h]
      exact halign
  refine ⟨⟨Nat.zero_le _, dvd_zero _⟩, ⟨min_le_right _ _, ?_⟩,
    ⟨min_le_right _ _, ?_⟩, ⟨min_le_right _ _, ?_⟩⟩
  · exact hmin _ (dvd_mul_left assets_count 2)
  · exact hmin _ (Nat.dvd_add hdvd (dvd_mul_left assets_count k))
  · exact hmin _ (Nat.dvd_add hdvd dvd_rfl)

/-- Witness for C10: with 2 assets, 6 total rows, pointer 2 and a
3-slice fast-forward, all four operations stay in range and aligned. -/
theorem replay_pointer_invariant_witness :
    (resetPointer ≤ 6 ∧ 2 ∣ resetPointer)
    ∧ (preloadPointer 2 6 ≤ 6 ∧ 2 ∣ preloadPointer 2 6)
    ∧ (fast_forward_slices 2 3 2 6 ≤ 6 ∧ 2 ∣ fast_forward_slices 2 3 2 6)
    ∧ (advancePointer 2 2 6 ≤ 6 ∧ 2 ∣ advancePointer 2 2 6) :=
  replay_pointer_invariant 2 6 2 3 (by decide) (by decide) (by decide)

end App
